import Mathlib

/-!
Verification development for the Fusion server core: a shallow embedding of
the `Game` membership logic (`src/src/game.cpp`), the `Server` registry
(`src/src/server.cpp`) and the per-session WebSocket pipeline
(`src/server/src/websocket_session.cpp`), together with theorems settling
the specification's claims about them.

Sessions are identified by their address, modelled as a natural number;
packages (`std::shared_ptr<const std::string>`) are modelled as strings.
-/

namespace FusionServer

/-- A `WebSocketSession*` identity token. -/
abbrev Session := Nat

/-- A `system_abstractions::Package`, i.e. the payload bytes of one frame. -/
abbrev Package := String

/-- `Game::Team` from `game.hpp`. -/
inductive Team where
  | kRandom
  | kFirst
  | kSecond
deriving DecidableEq, Repr

/--
The membership state of a `Game` (`game.hpp` / `game.cpp`).

`firstTeam` and `secondTeam` model `first_team_` / `second_team_`: the
sessions of the `std::set` of (session, player) pairs, in insertion order
(the claims only concern membership and size, never iteration order).
`playersCache` models `players_cache_`, the `std::map<WebSocketSession*, Team>`
declared in `game.hpp`, as an association list.
-/
structure Game where
  firstTeam : List Session
  secondTeam : List Session
  playersCache : List (Session × Team)
deriving DecidableEq, Repr

/-- `Game::kMaxPlayersPerTeam` (game.hpp line 182). -/
def kMaxPlayersPerTeam : Nat := 5

/-- A freshly constructed `Game` (the constructor only installs the delegate). -/
def Game.empty : Game := ⟨[], [], []⟩

/-- `Game::IsInGame` (game.cpp): scans both teams for the session. -/
def Game.isInGame (g : Game) (s : Session) : Bool :=
  g.firstTeam.contains s || g.secondTeam.contains s

/-- `Game::GetPlayersCount` (game.cpp): the sum of both teams' sizes. -/
def Game.getPlayersCount (g : Game) : Nat :=
  g.firstTeam.length + g.secondTeam.length

/--
`Game::Join` (game.cpp).  The C++ returns `join_result_t`
(`std::optional` of delegate and state snapshot); here success is
`some g'` with the updated membership state and failure (already joined,
or the selected team at capacity) is `none`, in which case the C++ object
is left unchanged.  Note that `players_cache_` is not touched anywhere in
`Game::Join` in `game.cpp`, and the embedding mirrors that.
-/
def Game.join (g : Game) (s : Session) (team : Team) : Option Game :=
  if g.isInGame s then
    none -- "This should never happen."
  else
    match team with
    | Team.kFirst =>
        if kMaxPlayersPerTeam ≤ g.firstTeam.length then none
        else some { g with firstTeam := g.firstTeam ++ [s] }
    | Team.kSecond =>
        if kMaxPlayersPerTeam ≤ g.secondTeam.length then none
        else some { g with secondTeam := g.secondTeam ++ [s] }
    | Team.kRandom =>
        -- first_team_.size() > second_team_.size()
        if g.secondTeam.length < g.firstTeam.length then
          if kMaxPlayersPerTeam ≤ g.secondTeam.length then none
          else some { g with secondTeam := g.secondTeam ++ [s] }
        else -- Either the second is bigger or they have the same size.
          if kMaxPlayersPerTeam ≤ g.firstTeam.length then none
          else some { g with firstTeam := g.firstTeam ++ [s] }

/--
`Game::Leave` (game.cpp): erase the session from whichever team holds it;
the Boolean reports whether it was present.  `players_cache_` is not
touched, mirroring the source.
-/
def Game.leave (g : Game) (s : Session) : Game × Bool :=
  if g.firstTeam.contains s then
    ({ g with firstTeam := g.firstTeam.erase s }, true)
  else if g.secondTeam.contains s then
    ({ g with secondTeam := g.secondTeam.erase s }, true)
  else
    (g, false)

/-- One externally driven membership operation on a `Game`. -/
inductive GameOp where
  | join (s : Session) (team : Team)
  | leave (s : Session)
deriving DecidableEq, Repr

/--
Applying one operation to the game object: a failed `Join` leaves the
C++ object unchanged, so it is the identity here.
-/
def Game.applyOp (g : Game) : GameOp → Game
  | GameOp.join s team => (g.join s team).getD g
  | GameOp.leave s => (g.leave s).1

/-- The game state after a sequence of `Join`/`Leave` operations. -/
def Game.runOps (g : Game) (ops : List GameOp) : Game :=
  ops.foldl Game.applyOp g

/-- Association-list lookup, modelling `std::map::find`. -/
def alookup {α β : Type} [DecidableEq α] (k : α) : List (α × β) → Option β
  | [] => none
  | (k', v) :: rest => if k' = k then some v else alookup k rest

-- ### Claim C5: team sizes are bounded by `kMaxPlayersPerTeam`

theorem Game.applyOp_length_le (g : Game) (op : GameOp)
    (h1 : g.firstTeam.length ≤ kMaxPlayersPerTeam)
    (h2 : g.secondTeam.length ≤ kMaxPlayersPerTeam) :
    (g.applyOp op).firstTeam.length ≤ kMaxPlayersPerTeam ∧
      (g.applyOp op).secondTeam.length ≤ kMaxPlayersPerTeam := by
  cases op with
  | join s team =>
    simp only [Game.applyOp, Game.join]
    split
    · exact ⟨h1, h2⟩
    · cases team <;> simp only []
      · split
        · split
          · exact ⟨h1, h2⟩
          · simp only [Option.getD_some, List.length_append, List.length_cons,
              List.length_nil]
            refine ⟨h1, ?_⟩
            omega
        · split
          · exact ⟨h1, h2⟩
          · simp only [Option.getD_some, List.length_append, List.length_cons,
              List.length_nil]
            refine ⟨?_, h2⟩
            omega
      · split
        · exact ⟨h1, h2⟩
        · simp only [Option.getD_some, List.length_append, List.length_cons,
            List.length_nil]
          refine ⟨?_, h2⟩
          omega
      · split
        · exact ⟨h1, h2⟩
        · simp only [Option.getD_some, List.length_append, List.length_cons,
            List.length_nil]
          refine ⟨h1, ?_⟩
          omega
  | leave s =>
    simp only [Game.applyOp, Game.leave]
    split
    · exact ⟨le_trans (List.length_erase_le _ _) h1, h2⟩
    · split
      · exact ⟨h1, le_trans (List.length_erase_le _ _) h2⟩
      · exact ⟨h1, h2⟩

theorem Game.runOps_length_le (ops : List GameOp) (g : Game)
    (h1 : g.firstTeam.length ≤ kMaxPlayersPerTeam)
    (h2 : g.secondTeam.length ≤ kMaxPlayersPerTeam) :
    (g.runOps ops).firstTeam.length ≤ kMaxPlayersPerTeam ∧
      (g.runOps ops).secondTeam.length ≤ kMaxPlayersPerTeam := by
  induction ops generalizing g with
  | nil => exact ⟨h1, h2⟩
  | cons op rest ih =>
    have h := Game.applyOp_length_le g op h1 h2
    exact ih (g.applyOp op) h.1 h.2

/--
C5: in every game state reachable from an empty `Game` by a sequence of
`Join` and `Leave` operations, each team holds at most
`kMaxPlayersPerTeam = 5` members; `Join` never inserts into a team already
at capacity.
-/
theorem teams_bounded_by_kMaxPlayersPerTeam (ops : List GameOp) :
    (Game.empty.runOps ops).firstTeam.length ≤ 5 ∧
      (Game.empty.runOps ops).secondTeam.length ≤ 5 := by
  have h := Game.runOps_length_le ops Game.empty (by simp [Game.empty])
    (by simp [Game.empty])
  exact h

-- ### Claim C4: `Join` with `Team::kRandom` picks the smaller team

/--
C4: joining with `Team::kRandom` a session not already in the game inserts
it into the strictly smaller team, into the first team on a size tie, and
when the selected team is at capacity returns the failure result without
touching either team (no spill into the other team).
-/
theorem join_random_picks_smaller_team (g : Game) (s : Session)
    (h : g.isInGame s = false) :
    (g.secondTeam.length < g.firstTeam.length →
      (g.secondTeam.length < kMaxPlayersPerTeam →
        g.join s Team.kRandom = some { g with secondTeam := g.secondTeam ++ [s] }) ∧
      (kMaxPlayersPerTeam ≤ g.secondTeam.length → g.join s Team.kRandom = none))
    ∧ (g.firstTeam.length ≤ g.secondTeam.length →
      (g.firstTeam.length < kMaxPlayersPerTeam →
        g.join s Team.kRandom = some { g with firstTeam := g.firstTeam ++ [s] }) ∧
      (kMaxPlayersPerTeam ≤ g.firstTeam.length → g.join s Team.kRandom = none))
    ∧ (g.join s Team.kRandom = none →
        g.applyOp (GameOp.join s Team.kRandom) = g) := by
  refine ⟨?_, ?_, ?_⟩
  · intro hlt
    constructor
    · intro hcap
      simp [Game.join, h, hlt, Nat.not_le.mpr hcap]
    · intro hfull
      simp [Game.join, h, hlt, hfull]
  · intro hle
    constructor
    · intro hcap
      simp [Game.join, h, Nat.not_lt.mpr hle, Nat.not_le.mpr hcap]
    · intro hfull
      simp [Game.join, h, Nat.not_lt.mpr hle, hfull]
  · intro hnone
    simp [Game.applyOp, hnone]

/-- Witness for C4 at a concrete game: the first team has one member and
the second is empty, so `|B| < |A|` and session 2 is inserted into the
strictly smaller second team. -/
theorem join_random_picks_smaller_team_witness :
    (Game.mk [1] [] []).isInGame 2 = false ∧
      (Game.mk [1] [] []).join 2 Team.kRandom = some (Game.mk [1] [2] []) :=
  ⟨by decide,
    ((join_random_picks_smaller_team (Game.mk [1] [] []) 2 (by decide)).1
      (by decide)).1 (by decide)⟩

-- ### Claim C1: the players cache is never maintained

theorem Game.applyOp_playersCache (g : Game) (op : GameOp) :
    (g.applyOp op).playersCache = g.playersCache := by
  cases op with
  | join s team =>
    simp only [Game.applyOp, Game.join]
    split
    · rfl
    · cases team <;> simp only [] <;> split <;> try split
      all_goals rfl
  | leave s =>
    simp only [Game.applyOp, Game.leave]
    split
    · rfl
    · split <;> rfl

theorem Game.runOps_playersCache (ops : List GameOp) (g : Game) :
    (g.runOps ops).playersCache = g.playersCache := by
  induction ops generalizing g with
  | nil => rfl
  | cons op rest ih =>
    calc ((g.applyOp op).runOps rest).playersCache
        = (g.applyOp op).playersCache := ih (g.applyOp op)
      _ = g.playersCache := Game.applyOp_playersCache g op

/--
C1 is false on the source: `Game::Join` and `Game::Leave` in `game.cpp`
never write to `players_cache_`, so the cache stays empty on every
reachable state while the teams fill up.  After the single operation
`Join(0, kFirst)` on a fresh game, session 0 is a member of the first team
but `players_cache_` has no entry for it, contradicting the claimed
agreement between the cache and the teams.
-/
theorem players_cache_never_updated :
    (∀ ops : List GameOp, (Game.empty.runOps ops).playersCache = []) ∧
      (Game.empty.runOps [GameOp.join 0 Team.kFirst]).firstTeam = [0] ∧
      alookup 0 (Game.empty.runOps [GameOp.join 0 Team.kFirst]).playersCache
        = none := by
  refine ⟨?_, by decide, by decide⟩
  intro ops
  exact Game.runOps_playersCache ops Game.empty

-- ## The WebSocket session pipeline (`src/server/src/websocket_session.cpp`)

/--
The observable state of one `WebSocketSession`.

`incommingQueue`, `outgoingQueue` and `handshakeComplete` are the
`Impl` fields `incomming_queue_`, `outgoing_queue_` and
`handshake_complete` (which is initialised `false`).  The remaining
fields model the asynchronous environment: `pendingWrites` counts the
`async_write` operations currently outstanding, `handshakeSeen` records
that the `async_accept` completion (`HandleHandshake`) has been
dispatched, `readLoopStarted` records that a read has been posted,
`wire` collects, in order, the payloads whose `async_write` completed
(what the peer receives), and `popped` collects, in order, the packages
returned by `Pop`.
-/
structure WSState where
  incommingQueue : List Package
  outgoingQueue : List Package
  handshakeComplete : Bool
  pendingWrites : Nat
  handshakeSeen : Bool
  readLoopStarted : Bool
  wire : List Package
  popped : List Package
deriving DecidableEq, Repr

/-- The state of a freshly constructed session. -/
def WSState.init : WSState := ⟨[], [], false, 0, false, false, [], []⟩

/--
`WebSocketSession::Write`: push the package, return if a write is already
in progress (queue length > 1 after the push) or if the handshake has not
completed, otherwise start an `async_write` of the queue front.
-/
def WSState.doWrite (st : WSState) (p : Package) : WSState :=
  let st' := { st with outgoingQueue := st.outgoingQueue ++ [p] }
  if 1 < st'.outgoingQueue.length then
    st' -- Means we're already writing.
  else if st'.handshakeComplete = false then
    st' -- We need to wait for the handshake to complete.
  else
    { st' with pendingWrites := st'.pendingWrites + 1 }

/--
`WebSocketSession::HandleHandshake` on the success path: if the outgoing
queue is non-empty, start an `async_write` of its front; then post the
first `async_read`.  Nothing in the source sets `handshake_complete`.
-/
def WSState.handleHandshake (st : WSState) : WSState :=
  let st' :=
    if st.outgoingQueue.isEmpty then st
    else { st with pendingWrites := st.pendingWrites + 1 }
  { st' with readLoopStarted := true }

/--
`WebSocketSession::HandleWrite` on the success path: the outstanding
write has delivered the queue front to the wire; pop it and, if the queue
is still non-empty, chain the next `async_write`.
-/
def WSState.handleWrite (st : WSState) : WSState :=
  let st' := { st with
    wire := st.wire ++ st.outgoingQueue.take 1,
    outgoingQueue := st.outgoingQueue.drop 1,
    pendingWrites := st.pendingWrites - 1 }
  if st'.outgoingQueue.isEmpty then st'
  else { st' with pendingWrites := st'.pendingWrites + 1 }

/--
`WebSocketSession::HandleRead` on the success path: the received bytes are
pushed onto the incoming queue and the next `async_read` is posted.
-/
def WSState.handleRead (st : WSState) (p : Package) : WSState :=
  { st with incommingQueue := st.incommingQueue ++ [p] }

/--
`WebSocketSession::Pop`: `nullptr` (here `none`) when the incoming queue
is empty, otherwise remove and return the front.  The returned package is
also recorded in the `popped` history.
-/
def WSState.pop (st : WSState) : Option Package × WSState :=
  match st.incommingQueue with
  | [] => (none, st)
  | front :: rest =>
      (some front,
        { st with incommingQueue := rest, popped := st.popped ++ [front] })

/-- The events that drive one session. -/
inductive WSEvent where
  | write (p : Package)
  | handshakeOk
  | writeDone
  | readFrame (p : Package)
  | popCall
deriving DecidableEq, Repr

/--
One step of the session: caller events (`write`, `popCall`) are always
enabled; completion events are guarded by their asynchronous operation
being outstanding (`handshakeOk` fires at most once, `writeDone` only
while a write is pending) and are no-ops otherwise.
-/
def WSState.step (st : WSState) : WSEvent → WSState
  | WSEvent.write p => st.doWrite p
  | WSEvent.handshakeOk =>
      if st.handshakeSeen then st
      else { st.handleHandshake with handshakeSeen := true }
  | WSEvent.writeDone =>
      if st.pendingWrites = 0 then st else st.handleWrite
  | WSEvent.readFrame p => st.handleRead p
  | WSEvent.popCall => (st.pop).2

/-- Run a trace of events from a state. -/
def WSState.run (st : WSState) : List WSEvent → WSState
  | [] => st
  | e :: rest => (st.step e).run rest

-- ### Claim C2: the handshake-done flag is never set

theorem WSState.step_handshakeComplete (st : WSState) (e : WSEvent) :
    (st.step e).handshakeComplete = st.handshakeComplete := by
  cases e with
  | write p =>
    simp only [WSState.step, WSState.doWrite]
    split
    · rfl
    · split <;> rfl
  | handshakeOk =>
    simp only [WSState.step, WSState.handleHandshake]
    split
    · rfl
    · split <;> rfl
  | writeDone =>
    simp only [WSState.step, WSState.handleWrite]
    split
    · rfl
    · split <;> rfl
  | readFrame p => rfl
  | popCall =>
    simp only [WSState.step, WSState.pop]
    split <;> rfl

theorem WSState.run_handshakeComplete (tr : List WSEvent) (st : WSState) :
    (st.run tr).handshakeComplete = st.handshakeComplete := by
  induction tr generalizing st with
  | nil => rfl
  | cons e rest ih =>
    calc ((st.step e).run rest).handshakeComplete
        = (st.step e).handshakeComplete := ih (st.step e)
      _ = st.handshakeComplete := WSState.step_handshakeComplete st e

/--
C2 is false on the source: no statement in `websocket_session.cpp` ever
assigns `handshake_complete`, so the flag stays `false` on every reachable
state — in particular after a successful `HandleHandshake`, which does
flush a non-empty outgoing queue and does start the read loop, yet leaves
the flag `false` instead of transitioning it to `true`.
-/
theorem handshake_flag_never_set :
    (∀ tr : List WSEvent, (WSState.init.run tr).handshakeComplete = false) ∧
      ((WSState.init.doWrite "w1").step WSEvent.handshakeOk).pendingWrites = 1 ∧
      ((WSState.init.doWrite "w1").step WSEvent.handshakeOk).readLoopStarted = true ∧
      ((WSState.init.doWrite "w1").step WSEvent.handshakeOk).handshakeComplete
        = false := by
  refine ⟨?_, by decide, by decide, by decide⟩
  intro tr
  exact WSState.run_handshakeComplete tr WSState.init

-- ### Claim C3: a payload enqueued after the queue drains is never written

theorem WSState.step_stuck (st : WSState) (e : WSEvent)
    (hp : st.pendingWrites = 0) (hc : st.handshakeComplete = false)
    (hs : st.handshakeSeen = true) :
    (st.step e).wire = st.wire ∧ (st.step e).pendingWrites = 0 ∧
      (st.step e).handshakeComplete = false ∧
      (st.step e).handshakeSeen = true := by
  cases e with
  | write p =>
    simp only [WSState.step, WSState.doWrite]
    split_ifs with h1
    · exact ⟨rfl, hp, hc, hs⟩
    · exact ⟨rfl, hp, hc, hs⟩
  | handshakeOk =>
    simp only [WSState.step]
    rw [if_pos hs]
    exact ⟨rfl, hp, hc, hs⟩
  | writeDone =>
    simp only [WSState.step]
    rw [if_pos hp]
    exact ⟨rfl, hp, hc, hs⟩
  | readFrame p => exact ⟨rfl, hp, hc, hs⟩
  | popCall =>
    cases h : st.incommingQueue with
    | nil => simp [WSState.step, WSState.pop, h, hp, hc, hs]
    | cons a l => simp [WSState.step, WSState.pop, h, hp, hc, hs]

theorem WSState.run_stuck (tr : List WSEvent) (st : WSState)
    (hp : st.pendingWrites = 0) (hc : st.handshakeComplete = false)
    (hs : st.handshakeSeen = true) :
    (st.run tr).wire = st.wire ∧ (st.run tr).pendingWrites = 0 ∧
      (st.run tr).handshakeComplete = false ∧
      (st.run tr).handshakeSeen = true := by
  induction tr generalizing st with
  | nil => exact ⟨rfl, hp, hc, hs⟩
  | cons e rest ih =>
    have hstep := WSState.step_stuck st e hp hc hs
    have h := ih (st.step e) hstep.2.1 hstep.2.2.1 hstep.2.2.2
    exact ⟨hstep.1 ▸ h.1, h.2⟩

/--
C3 is false on the source: because `handshake_complete` is never set
(see `websocket_session.cpp`), a `Write` that finds the outgoing queue
empty after the handshake never starts an `async_write`.  After the trace
`[handshakeOk, write "x"]` the payload `"x"` sits in the outgoing queue
with no write outstanding, and no continuation of the trace ever delivers
anything to the wire: the enqueued payload is lost.
-/
theorem write_after_drain_never_reaches_wire (ext : List WSEvent) :
    (WSState.init.run [WSEvent.handshakeOk, WSEvent.write "x"]).outgoingQueue
        = ["x"] ∧
      (WSState.init.run [WSEvent.handshakeOk, WSEvent.write "x"]).pendingWrites
        = 0 ∧
      ((WSState.init.run [WSEvent.handshakeOk, WSEvent.write "x"]).run ext).wire
        = [] := by
  refine ⟨by decide, by decide, ?_⟩
  have h := WSState.run_stuck ext
    (WSState.init.run [WSEvent.handshakeOk, WSEvent.write "x"])
    (by decide) (by decide) (by decide)
  have hw : (WSState.init.run [WSEvent.handshakeOk, WSEvent.write "x"]).wire
      = [] := by decide
  exact hw ▸ h.1

-- ### Claim C10: `Pop` yields inbound packages in arrival order

/-- The payloads delivered by the read loop along a trace, in order. -/
def inboundOf (tr : List WSEvent) : List Package :=
  tr.filterMap fun e =>
    match e with
    | WSEvent.readFrame p => some p
    | _ => none

theorem WSState.run_popped_incomming (tr : List WSEvent) (st : WSState) :
    (st.run tr).popped ++ (st.run tr).incommingQueue
      = st.popped ++ st.incommingQueue ++ inboundOf tr := by
  induction tr generalizing st with
  | nil => simp [WSState.run, inboundOf]
  | cons e rest ih =>
    have hstep : (st.step e).popped ++ (st.step e).incommingQueue
        = st.popped ++ st.incommingQueue ++ inboundOf [e] := by
      cases e with
      | write p =>
        simp only [WSState.step, WSState.doWrite, inboundOf, List.filterMap]
        split
        · simp
        · split <;> simp
      | handshakeOk =>
        simp only [WSState.step, WSState.handleHandshake, inboundOf,
          List.filterMap]
        split
        · simp
        · split <;> simp
      | writeDone =>
        simp only [WSState.step, WSState.handleWrite, inboundOf,
          List.filterMap]
        split
        · simp
        · split <;> simp
      | readFrame p =>
        simp [WSState.step, WSState.handleRead, inboundOf, List.filterMap,
          List.append_assoc]
      | popCall =>
        simp only [WSState.step, WSState.pop, inboundOf, List.filterMap]
        split
        · simp
        · next front rest' heq => simp [heq, List.append_assoc]
    have hrest : inboundOf (e :: rest) = inboundOf [e] ++ inboundOf rest := by
      simp [inboundOf, List.filterMap]
      cases e <;> simp
    calc (WSState.run (st.step e) rest).popped
          ++ (WSState.run (st.step e) rest).incommingQueue
        = (st.step e).popped ++ (st.step e).incommingQueue ++ inboundOf rest :=
          ih (st.step e)
      _ = st.popped ++ st.incommingQueue ++ inboundOf [e] ++ inboundOf rest := by
          rw [hstep]
      _ = st.popped ++ st.incommingQueue ++ inboundOf (e :: rest) := by
          rw [hrest, List.append_assoc]

/--
C10: on every reachable session state, `Pop` returns `none` exactly when
the incoming queue is empty and otherwise removes and returns its oldest
entry; the packages returned by successive `Pop` calls, followed by what
is still queued, are exactly the inbound packages in arrival order.
-/
theorem pop_fifo_order (tr : List WSEvent) :
    ((WSState.init.run tr).pop).1 = (WSState.init.run tr).incommingQueue.head? ∧
      ((WSState.init.run tr).pop).2.incommingQueue
        = (WSState.init.run tr).incommingQueue.tail ∧
      (WSState.init.run tr).popped ++ (WSState.init.run tr).incommingQueue
        = inboundOf tr := by
  refine ⟨?_, ?_, ?_⟩
  · cases h : (WSState.init.run tr).incommingQueue <;>
      simp [WSState.pop, h]
  · cases h : (WSState.init.run tr).incommingQueue <;>
      simp [WSState.pop, h]
  · have h := WSState.run_popped_incomming tr WSState.init
    simpa [WSState.init] using h

-- ## Broadcast fan-out (`Game::BroadcastPackage` and the game delegate)

/--
`Game::BroadcastPackage` (game.cpp): call `Write(package)` once for every
pair of the first team, then once for every pair of the second team.  The
result lists the `Write` calls in issue order as (session, payload) pairs.
-/
def Game.broadcastPackage (g : Game) (package : Package) :
    List (Session × Package) :=
  g.firstTeam.map (fun s => (s, package))
    ++ g.secondTeam.map (fun s => (s, package))

/--
The delegate installed by the `Game` constructor (game.cpp): it forwards
every inbound package to `BroadcastPackage`, ignoring which session the
package came from.
-/
def Game.delegete (g : Game) (package : Package) (_src : Session) :
    List (Session × Package) :=
  g.broadcastPackage package

/--
C9: `BroadcastPackage` (as invoked by the game delegate on an inbound
frame) enqueues the frame via `Write` exactly once to every session in
the first team and exactly once to every session in the second team —
the originating session included, since the delegate never excludes it.
-/
theorem broadcast_reaches_each_member_once (g : Game) (package : Package)
    (src s : Session) (hnd : (g.firstTeam ++ g.secondTeam).Nodup)
    (hs : s ∈ g.firstTeam ++ g.secondTeam) :
    ((g.delegete package src).map Prod.fst).count s = 1 ∧
      ∀ e ∈ g.delegete package src, e.2 = package := by
  constructor
  · have hmap : (g.delegete package src).map Prod.fst
        = g.firstTeam ++ g.secondTeam := by
      simp [Game.delegete, Game.broadcastPackage, Function.comp_def]
    rw [hmap]
    exact List.count_eq_one_of_mem hnd hs
  · intro e he
    simp only [Game.delegete, Game.broadcastPackage, List.mem_append,
      List.mem_map] at he
    rcases he with ⟨x, _, hx⟩ | ⟨x, _, hx⟩ <;> rw [← hx]

/-- Witness for C9: the originating session 1 itself receives the frame
exactly once in a game with members 1, 2 in the first team and 3 in the
second. -/
theorem broadcast_reaches_each_member_once_witness :
    (((Game.mk [1, 2] [3] []).delegete "x" 1).map Prod.fst).count 1 = 1 :=
  (broadcast_reaches_each_member_once (Game.mk [1, 2] [3] []) "x" 1 1
    (by decide) (by decide)).1

-- ## The server registry (`src/src/server.cpp`)

/-- Association-list update, modelling `std::map::operator[]` assignment
(including `std::map::emplace` of a fresh key). -/
def ainsert {α β : Type} [DecidableEq α] (k : α) (v : β) :
    List (α × β) → List (α × β)
  | [] => [(k, v)]
  | (k', v') :: rest =>
      if k' = k then (k, v) :: rest else (k', v') :: ainsert k v rest

/-- Association-list removal, modelling `std::map::erase`. -/
def aerase {α β : Type} [DecidableEq α] (k : α) :
    List (α × β) → List (α × β)
  | [] => []
  | (k', v) :: rest => if k' = k then rest else (k', v) :: aerase k rest

/--
The registry state inside `Server` (server.hpp): the unidentified-session
set, the name→game map `games_`, the session→optional-game-name map
`sessions_correlation_`, and the `has_stopped_` flag.
-/
structure ServerState where
  unidentifiedSessions : List Session
  games : List (String × Game)
  sessionsCorrelation : List (Session × Option String)
  hasStopped : Bool
deriving DecidableEq, Repr

/--
`Server::Register` (server.cpp): a session already in the correlation map
only gets a warning (the Boolean result); otherwise it is recorded as
unidentified with no correlated game.
-/
def ServerState.register (st : ServerState) (s : Session) :
    ServerState × Bool :=
  if (alookup s st.sessionsCorrelation).isSome then
    (st, true) -- Second registration of a session: warn only.
  else
    ({ st with
        sessionsCorrelation := ainsert s none st.sessionsCorrelation,
        unidentifiedSessions := st.unidentifiedSessions ++ [s] },
      false)

/--
`Server::Unregister` (server.cpp).  The Boolean result records whether the
"not registered" warning was logged.  When the server has stopped the call
returns at once; a session with no correlation entry only produces the
warning; an unidentified session is dropped from both maps; a correlated
session is removed from the correlation map, made to leave its game
(`games_[name]` default-constructs a fresh game when the name is absent,
as `std::map::operator[]` does), and the game is erased from `games_`
when its player count has reached zero.
-/
def ServerState.unregister (st : ServerState) (s : Session) :
    ServerState × Bool :=
  if st.hasStopped then
    (st, false)
  else
    match alookup s st.sessionsCorrelation with
    | none => (st, true) -- Trying to unregister an unknown session: warn.
    | some gameName =>
      let corr := aerase s st.sessionsCorrelation
      match gameName with
      | none =>
          ({ st with
              sessionsCorrelation := corr,
              unidentifiedSessions := st.unidentifiedSessions.erase s },
            false)
      | some name =>
          let g := ((alookup name st.games).getD Game.empty).leave s
          let games1 := ainsert name g.1 st.games
          let games2 :=
            if g.1.getPlayersCount = 0 then aerase name games1 else games1
          ({ st with sessionsCorrelation := corr, games := games2 }, false)

/--
A client request as seen by `Server::MakeResponse`: a JSON object whose
`type`, `game` and `nick` fields may each be absent.
-/
structure Request where
  type : Option String
  game : Option String
  nick : Option String
deriving DecidableEq, Repr

/-- The response frames built by `Server::MakeResponse` (server.cpp).  The
joined variant's id/players payload comes from the external player module
and is not modelled. -/
inductive Response where
  | joinResultJoined
  | joinResultFull
  | warning (message : String) (closed : Bool)
deriving DecidableEq, Repr

/--
`Server::MakeResponse` (server.cpp): a `join` request looks up or creates
the named game and joins the session to a random team, recording the
correlation on success; any other (or missing) `type` yields the
unidentified-package warning and leaves the state untouched.
-/
def ServerState.makeResponse (st : ServerState) (src : Session)
    (request : Request) : ServerState × Response :=
  if request.type = some "join" then
    let gameName := (request.game).getD ""
    let g := (alookup gameName st.games).getD Game.empty
    match g.join src Team.kRandom with
    | none =>
        ({ st with games := ainsert gameName g st.games },
          Response.joinResultFull)
    | some g2 =>
        ({ st with
            games := ainsert gameName g2 st.games,
            unidentifiedSessions := st.unidentifiedSessions.erase src,
            sessionsCorrelation :=
              ainsert src (some gameName) st.sessionsCorrelation },
          Response.joinResultJoined)
  else
    (st, Response.warning "Received an unidentified package." false)

/--
`Server::unjoined_delegate_` (server.cpp constructor): build the response
via `MakeResponse` and write it, as a single frame, to the source session.
-/
def ServerState.unjoinedDelegate (st : ServerState) (request : Request)
    (src : Session) : ServerState × List (Session × Response) :=
  let result := st.makeResponse src request
  (result.1, [(src, result.2)])

-- ### Association-list lemmas

theorem alookup_eq_none_of_not_mem {α β : Type} [DecidableEq α] (k : α)
    (l : List (α × β)) (h : k ∉ l.map Prod.fst) : alookup k l = none := by
  induction l with
  | nil => rfl
  | cons p rest ih =>
    obtain ⟨k', v⟩ := p
    simp only [List.map_cons, List.mem_cons, not_or] at h
    have hne : ¬ k' = k := fun hk => h.1 hk.symm
    simp only [alookup, if_neg hne]
    exact ih h.2

theorem alookup_aerase_self {α β : Type} [DecidableEq α] (k : α)
    (l : List (α × β)) (h : (l.map Prod.fst).Nodup) :
    alookup k (aerase k l) = none := by
  induction l with
  | nil => rfl
  | cons p rest ih =>
    obtain ⟨k', v⟩ := p
    simp only [List.map_cons, List.nodup_cons] at h
    by_cases hk : k' = k
    · simp only [aerase, if_pos hk]
      exact alookup_eq_none_of_not_mem k rest (hk ▸ h.1)
    · simp only [aerase, if_neg hk, alookup, if_neg hk]
      exact ih h.2

theorem alookup_ainsert_self {α β : Type} [DecidableEq α] (k : α) (v : β)
    (l : List (α × β)) : alookup k (ainsert k v l) = some v := by
  induction l with
  | nil => simp [ainsert, alookup]
  | cons p rest ih =>
    obtain ⟨k', v'⟩ := p
    by_cases hk : k' = k
    · simp [ainsert, if_pos hk, alookup]
    · simp only [ainsert, if_neg hk, alookup, if_neg hk]
      exact ih

theorem ainsert_map_fst {α β : Type} [DecidableEq α] (k : α) (v : β)
    (l : List (α × β)) :
    (ainsert k v l).map Prod.fst
      = if k ∈ l.map Prod.fst then l.map Prod.fst
        else l.map Prod.fst ++ [k] := by
  induction l with
  | nil => simp [ainsert]
  | cons p rest ih =>
    obtain ⟨k', v'⟩ := p
    by_cases hk : k' = k
    · subst hk
      simp [ainsert]
    · have hne : ¬ k = k' := fun hkk => hk hkk.symm
      simp only [ainsert, if_neg hk, List.map_cons, ih, List.mem_cons]
      by_cases hm : k ∈ rest.map Prod.fst
      · simp [hm, hne]
      · simp [hm, hne]

theorem ainsert_keys_nodup {α β : Type} [DecidableEq α] (k : α) (v : β)
    (l : List (α × β)) (h : (l.map Prod.fst).Nodup) :
    ((ainsert k v l).map Prod.fst).Nodup := by
  rw [ainsert_map_fst]
  by_cases hm : k ∈ l.map Prod.fst
  · simpa [hm] using h
  · simp only [hm, if_false, List.nodup_append]
    exact ⟨h, List.nodup_singleton k, by simpa using hm⟩

-- ### Claim C6: unregister removes the correlation and cleans up

/--
C6: unregistering a session correlated to game name `name` (on a running
server, with the well-formedness a `std::map` guarantees) removes its
correlation entry, applies `Leave` to the game of that name, erases the
game from the games map exactly when its player count is zero afterwards,
and hence never leaves a zero-player game behind under that name.
-/
theorem unregister_removes_correlation_and_empty_game
    (st : ServerState) (s : Session) (name : String)
    (hstop : st.hasStopped = false)
    (hcorr : alookup s st.sessionsCorrelation = some (some name))
    (hndC : (st.sessionsCorrelation.map Prod.fst).Nodup)
    (hndG : (st.games.map Prod.fst).Nodup) :
    alookup s ((st.unregister s).1).sessionsCorrelation = none ∧
      (((((alookup name st.games).getD Game.empty).leave s).1).getPlayersCount
          = 0 →
        alookup name ((st.unregister s).1).games = none) ∧
      (((((alookup name st.games).getD Game.empty).leave s).1).getPlayersCount
          ≠ 0 →
        alookup name ((st.unregister s).1).games
          = some ((((alookup name st.games).getD Game.empty).leave s).1)) ∧
      (∀ g : Game, alookup name ((st.unregister s).1).games = some g →
        g.getPlayersCount ≠ 0) := by
  have hres : (st.unregister s).1
      = { st with
          sessionsCorrelation := aerase s st.sessionsCorrelation,
          games :=
            if ((((alookup name st.games).getD Game.empty).leave s).1).getPlayersCount = 0
            then aerase name
              (ainsert name ((((alookup name st.games).getD Game.empty).leave s).1) st.games)
            else
              ainsert name ((((alookup name st.games).getD Game.empty).leave s).1) st.games } := by
    simp [ServerState.unregister, hstop, hcorr]
  refine ⟨?_, ?_, ?_, ?_⟩
  · rw [hres]
    exact alookup_aerase_self s st.sessionsCorrelation hndC
  · intro hzero
    rw [hres]
    simp only [if_pos hzero]
    exact alookup_aerase_self name _ (ainsert_keys_nodup name _ st.games hndG)
  · intro hnz
    rw [hres]
    simp only [if_neg hnz]
    exact alookup_ainsert_self name _ st.games
  · intro g hg
    by_cases hzero :
        ((((alookup name st.games).getD Game.empty).leave s).1).getPlayersCount = 0
    · rw [hres] at hg
      simp only [if_pos hzero] at hg
      rw [alookup_aerase_self name _ (ainsert_keys_nodup name _ st.games hndG)]
        at hg
      exact absurd hg (by simp)
    · rw [hres] at hg
      simp only [if_neg hzero] at hg
      rw [alookup_ainsert_self name _ st.games] at hg
      have : g = (((alookup name st.games).getD Game.empty).leave s).1 := by
        injection hg.symm
      rw [this]
      exact hzero

/-- Witness for C6: session 7 is the single member of game "g"; after its
unregister the correlation entry is gone and "g" has disappeared from the
games map. -/
theorem unregister_removes_correlation_and_empty_game_witness :
    alookup 7 (((ServerState.mk [] [("g", Game.mk [7] [] [])]
          [(7, some "g")] false).unregister 7).1).sessionsCorrelation = none ∧
      alookup "g" (((ServerState.mk [] [("g", Game.mk [7] [] [])]
          [(7, some "g")] false).unregister 7).1).games = none := by
  have h := unregister_removes_correlation_and_empty_game
    (ServerState.mk [] [("g", Game.mk [7] [] [])] [(7, some "g")] false)
    7 "g" rfl (by decide) (by decide) (by decide)
  exact ⟨h.1, h.2.1 (by decide)⟩

-- ### Claim C7: unregister is idempotent and guarded

/--
C7: `Unregister` on a stopped server returns without touching any state
(and without warning); `Unregister` of a session absent from the
correlation map only logs the warning and changes nothing; consequently,
on a running server a second `Unregister` of the same session is a no-op
that logs the warning.
-/
theorem unregister_idempotent_and_guarded (st : ServerState) (s : Session) :
    (st.hasStopped = true → st.unregister s = (st, false)) ∧
      (st.hasStopped = false → alookup s st.sessionsCorrelation = none →
        st.unregister s = (st, true)) ∧
      (st.hasStopped = false → (st.sessionsCorrelation.map Prod.fst).Nodup →
        ((st.unregister s).1).unregister s = ((st.unregister s).1, true)) := by
  refine ⟨?_, ?_, ?_⟩
  · intro h
    simp [ServerState.unregister, h]
  · intro h ha
    simp [ServerState.unregister, h, ha]
  · intro h hnd
    cases hcorr : alookup s st.sessionsCorrelation with
    | none =>
      simp [ServerState.unregister, h, hcorr]
    | some gameName =>
      cases gameName with
      | none =>
        have h1 : (st.unregister s).1
            = { st with
                sessionsCorrelation := aerase s st.sessionsCorrelation,
                unidentifiedSessions := st.unidentifiedSessions.erase s } := by
          simp [ServerState.unregister, h, hcorr]
        rw [h1]
        simp [ServerState.unregister, h, alookup_aerase_self s _ hnd]
      | some name =>
        by_cases hz : ((((alookup name st.games).getD Game.empty).leave s).1).getPlayersCount = 0
        · have h1 : (st.unregister s).1
              = { st with
                  sessionsCorrelation := aerase s st.sessionsCorrelation,
                  games := aerase name (ainsert name
                    ((((alookup name st.games).getD Game.empty).leave s).1)
                    st.games) } := by
            simp [ServerState.unregister, h, hcorr, hz]
          rw [h1]
          simp [ServerState.unregister, h, alookup_aerase_self s _ hnd]
        · have h1 : (st.unregister s).1
              = { st with
                  sessionsCorrelation := aerase s st.sessionsCorrelation,
                  games := ainsert name
                    ((((alookup name st.games).getD Game.empty).leave s).1)
                    st.games } := by
            simp [ServerState.unregister, h, hcorr, hz]
          rw [h1]
          simp [ServerState.unregister, h, alookup_aerase_self s _ hnd]

/-- Witness for C7: on a stopped server the unregister is a silent no-op;
on a fresh running server it only warns; and a second unregister after a
real one warns without changing state. -/
theorem unregister_idempotent_and_guarded_witness :
    (ServerState.mk [] [] [] true).unregister 0
        = (ServerState.mk [] [] [] true, false) ∧
      (ServerState.mk [] [] [] false).unregister 0
        = (ServerState.mk [] [] [] false, true) ∧
      ((((ServerState.mk [0] [] [(0, none)] false).unregister 0).1).unregister 0)
        = ((((ServerState.mk [0] [] [(0, none)] false).unregister 0).1), true) :=
  ⟨(unregister_idempotent_and_guarded (ServerState.mk [] [] [] true) 0).1 rfl,
    (unregister_idempotent_and_guarded (ServerState.mk [] [] [] false) 0).2.1
      rfl rfl,
    (unregister_idempotent_and_guarded
      (ServerState.mk [0] [] [(0, none)] false) 0).2.2 rfl (by decide)⟩

-- ### Claim C8: non-join requests get exactly one warning frame

/--
C8: for an inbound frame whose `type` field is anything other than
`"join"` (or missing), the unjoined delegate replies to the source
session with exactly one frame — the unidentified-package warning with
`closed = false` — and leaves the registry and every game untouched.
-/
theorem unjoined_nonjoin_gets_warning (st : ServerState) (src : Session)
    (request : Request) (h : request.type ≠ some "join") :
    st.unjoinedDelegate request src
      = (st,
        [(src, Response.warning "Received an unidentified package." false)]) := by
  simp [ServerState.unjoinedDelegate, ServerState.makeResponse, h]

/-- Witness for C8 on a `{"type":"ping"}` request against a server with
one unidentified session. -/
theorem unjoined_nonjoin_gets_warning_witness :
    (ServerState.mk [4] [] [(4, none)] false).unjoinedDelegate
        (Request.mk (some "ping") none none) 4
      = (ServerState.mk [4] [] [(4, none)] false,
        [(4, Response.warning "Received an unidentified package." false)]) :=
  unjoined_nonjoin_gets_warning (ServerState.mk [4] [] [(4, none)] false) 4
    (Request.mk (some "ping") none none) (by decide)

end FusionServer
